import Mathlib

/-
Verification development for the Letta SDK integration layer
(server/letta-sdk.js of the claudecodeui repository).

The JavaScript source is shallowly embedded: JavaScript values are the
inductive type JSVal; property access, truthiness, strict equality and
string trimming follow the ECMAScript semantics the source relies on.
Fallible operations (property access on nullish values, calling .match
on a value with no such method) return Except, with the error standing
for a thrown TypeError.
-/

namespace LettaSDK

/-- Model of a JavaScript value as it flows through this module.
Numbers are modelled as integers (no NaN or fractional values are
produced or inspected by the code under study). Objects and arrays are
modelled structurally by their own contents; strict equality treats two
composite values as distinct references (the module never compares the
same reference twice). -/
inductive JSVal where
  | vUndefined : JSVal
  | vNull : JSVal
  | vBool : Bool → JSVal
  | vNum : Int → JSVal
  | vStr : String → JSVal
  | vArr : List JSVal → JSVal
  | vObj : List (String × JSVal) → JSVal

/-- ECMAScript ToBoolean on the modelled values: undefined, null, false,
0 and the empty string are falsy; every array or object is truthy. -/
def truthy : JSVal → Bool
  | .vUndefined => false
  | .vNull => false
  | .vBool b => b
  | .vNum n => !(n == 0)
  | .vStr s => !(s.data.isEmpty)
  | .vArr _ => true
  | .vObj _ => true

/-- Strict equality (===) on the modelled values. Primitives compare
structurally; composite values compare as distinct references, which is
faithful here because the module only ever compares a configuration
entry against a freshly received tool name. -/
def strictEq : JSVal → JSVal → Bool
  | .vUndefined, .vUndefined => true
  | .vNull, .vNull => true
  | .vBool a, .vBool b => a == b
  | .vNum a, .vNum b => a == b
  | .vStr a, .vStr b => a == b
  | _, _ => false

/-- True when the value is null or undefined (the operand test of ??). -/
def jsNullish : JSVal → Bool
  | .vUndefined => true
  | .vNull => true
  | _ => false

/-- The nullish coalescing operator: a ?? null. -/
def jsOrNullish (a : JSVal) : JSVal :=
  if jsNullish a then .vNull else a

/-- Short-circuit a || b as used on values (first truthy operand). -/
def jsOr (a b : JSVal) : JSVal :=
  if truthy a then a else b

/-- The nullish coalescing operator a ?? b. -/
def jsCoalesce (a b : JSVal) : JSVal :=
  if jsNullish a then b else a

/-- First binding of a key in an object field list. The objects built by
this module never carry duplicate keys. -/
def lookupField : List (String × JSVal) → String → Option JSVal
  | [], _ => none
  | (k, v) :: rest, key => if k == key then some v else lookupField rest key

/-- Total property access used where the receiver is known not to be
nullish: a missing field, or a field of a primitive or array receiver,
reads as undefined. -/
def getFieldD (v : JSVal) (key : String) : JSVal :=
  match v with
  | .vObj fields => (lookupField fields key).getD .vUndefined
  | _ => .vUndefined

/-- Message stem for a TypeError raised by property access on nullish. -/
def strReadOfNullish : String := "TypeError: cannot read properties of nullish value: "

/-- Property access as an operation that can throw: reading a property
of null or undefined raises a TypeError. -/
def jsGet (v : JSVal) (key : String) : Except String JSVal :=
  match v with
  | .vUndefined => .error (strReadOfNullish ++ key)
  | .vNull => .error (strReadOfNullish ++ key)
  | _ => .ok (getFieldD v key)

/-- ECMAScript WhiteSpace and LineTerminator code points, the set
removed by String.prototype.trim. -/
def jsWs (c : Char) : Bool :=
  let n := c.toNat
  decide ((9 ≤ n ∧ n ≤ 13) ∨ n = 32 ∨ n = 160 ∨ n = 0x1680 ∨
    (0x2000 ≤ n ∧ n ≤ 0x200a) ∨ n = 0x2028 ∨ n = 0x2029 ∨ n = 0x202f ∨
    n = 0x205f ∨ n = 0x3000 ∨ n = 0xfeff)

/-- String.prototype.trim: strip leading and trailing whitespace. -/
def jsTrim (s : String) : String :=
  String.mk (((s.data.dropWhile jsWs).reverse.dropWhile jsWs).reverse)

/-- Boolean prefix test on character lists (String.prototype.startsWith). -/
def listIsPfx : List Char → List Char → Bool
  | [], _ => true
  | _ :: _, [] => false
  | a :: as, b :: bs => a == b && listIsPfx as bs

/-- String.prototype.startsWith. -/
def strStarts (s p : String) : Bool := listIsPfx p.data s.data

/-- String.prototype.endsWith. -/
def strEnds (s p : String) : Bool := listIsPfx p.data.reverse s.data.reverse

/-- A character matched by the regular expression dot: anything except a
LineTerminator. -/
def jsDotOk (c : Char) : Bool :=
  let n := c.toNat
  decide (¬ (n = 10 ∨ n = 13 ∨ n = 0x2028 ∨ n = 0x2029))

def strBash : String := "Bash"
def strBashOpen : String := "Bash("
def strStarClose : String := ":*)"
def strCommand : String := "command"

/-- Result of entry.match against the anchored pattern Bash( (.+) :*) —
written in the source as a regular expression — returning the captured
prefix when the whole entry matches. The capture is greedy but both
anchors pin it to the segment between the fixed head and tail, and the
dot excludes line terminators. -/
def bashWildcard (s : String) : Option String :=
  let cs := s.data
  if strStarts s strBashOpen && strEnds s strStarClose && decide (9 ≤ cs.length) then
    let mid := (cs.drop 5).take (cs.length - 8)
    if mid.all jsDotOk then some (String.mk mid) else none
  else none

/-- The command-like string the matcher extracts from a tool input: a
bare string is trimmed; a truthy object whose command field is a string
yields that field trimmed; anything else yields the empty string. -/
def commandOf (input : JSVal) : String :=
  match input with
  | .vStr s => jsTrim s
  | .vObj fields =>
    match lookupField fields strCommand with
    | some (.vStr c) => jsTrim c
    | _ => ""
  | _ => ""

/-- Message of the TypeError raised when .match is called on a truthy
value that is not a string. -/
def strMatchTypeError : String := "TypeError: entry.match is not a function"

/-- matchesToolPermission(entry, toolName, input) from the source: falsy
entry or tool name never match; strict equality of entry and tool name
matches; otherwise entry.match is evaluated (throwing on a truthy
non-string entry), and a Bash prefix-wildcard entry matches exactly when
the tool name is Bash and the trimmed extracted command is nonempty and
starts with the captured literal prefix. -/
def matchesToolPermission (entry toolName input : JSVal) : Except String Bool :=
  if !truthy entry || !truthy toolName then .ok false
  else if strictEq entry toolName then .ok true
  else
    match entry with
    | .vStr s =>
      match bashWildcard s with
      | some p =>
        if strictEq toolName (.vStr strBash) then
          let c := commandOf input
          .ok (if c.data.isEmpty then false else strStarts c p)
        else .ok false
      | none => .ok false
    | _ => .error strMatchTypeError

/-
Approval Gate (waitForToolApproval / resolveLettaToolApproval).

One approval request is modelled as a state machine. The request is
created with its resolver stored in the pending map and a live timer.
Two kinds of events can reach it: an external resolveLettaToolApproval
call (with any token and any decision value) and the firing of its
timer. The JavaScript event loop runs each handler atomically, and
clearTimeout inside finalize prevents a cleared timer from ever firing,
which the model captures with the timerActive guard.
-/

/-- State of one approval request: whether its resolver is still in the
pending map, whether its timeout is still scheduled, whether the
promise has settled and with what value, and how many times onCancel
has been invoked. -/
structure GateState where
  requestId : String
  pending : Bool
  timerActive : Bool
  settled : Bool
  outcome : Option JSVal
  onCancelCount : Nat

/-- Events that can reach an approval request: an external resolution
attempt for some token, or the firing of the scheduled timeout. -/
inductive GateEvent where
  | resolveCall : String → JSVal → GateEvent
  | timerFire : GateEvent

/-- finalize(decision): a no-op when already settled, otherwise marks
the request settled, deletes it from the pending map, clears the timer
and fixes the outcome. -/
def gateFinalize (s : GateState) (d : JSVal) : GateState :=
  if s.settled then s
  else { s with pending := false, timerActive := false, settled := true, outcome := some d }

/-- One transition. resolveLettaToolApproval(token, d) looks the token
up in the pending map and calls the stored resolver only when found;
the timer callback runs only while the timeout is still scheduled, and
then invokes onCancel before finalizing with null. -/
def gateStep (s : GateState) : GateEvent → GateState
  | .resolveCall t d => if t == s.requestId && s.pending then gateFinalize s d else s
  | .timerFire =>
    if s.timerActive then
      gateFinalize { s with onCancelCount := s.onCancelCount + 1 } .vNull
    else s

/-- The state set up by waitForToolApproval: resolver registered, timer
scheduled, promise unsettled. -/
def gateInit (rid : String) : GateState :=
  { requestId := rid, pending := true, timerActive := true, settled := false,
    outcome := none, onCancelCount := 0 }

/-- Run a sequence of events against a fresh request. -/
def gateRun (rid : String) (events : List GateEvent) : GateState :=
  events.foldl gateStep (gateInit rid)

/-
Tool policy and the canUseTool authorization callback.
-/

/-- The normalized tool policy threaded through canUseTool. -/
structure ToolsSettings where
  allowedTools : List JSVal
  disallowedTools : List JSVal
  skipPermissions : Bool

/-- Array.prototype.some over matchesToolPermission, short-circuiting
and propagating a thrown TypeError. -/
def someMatch : List JSVal → JSVal → JSVal → Except String Bool
  | [], _, _ => .ok false
  | e :: rest, toolName, input =>
    match matchesToolPermission e toolName input with
    | .error msg => .error msg
    | .ok true => .ok true
    | .ok false => someMatch rest toolName input

/-- Outbound signals sent over the transport by this module. -/
inductive Signal where
  | permissionRequest : String → JSVal → JSVal → JSVal → Signal
  | permissionCancelled : String → String → JSVal → Signal
  | sessionCreated : JSVal → JSVal → Signal
  | response : JSVal → JSVal → Signal
  | complete : JSVal → Nat → Bool → JSVal → JSVal → JSVal → Signal
  | errorSig : JSVal → JSVal → Signal

/-- The value canUseTool returns to the SDK. -/
inductive ToolDecision where
  | allow : JSVal → ToolDecision
  | deny : JSVal → ToolDecision

/-- Result of one canUseTool invocation: the decision returned to the
SDK, the signals emitted to the peer in order, and the tool policy as
it stands afterwards. -/
structure CanUseResult where
  decision : ToolDecision
  emitted : List Signal
  settings : ToolsSettings

/-- What the awaited approval produced: the timer fired first, or an
external resolution delivered a decision value. -/
inductive GateResult where
  | timedOut : GateResult
  | resolved : JSVal → GateResult

def strBypass : String := "bypassPermissions"
def strAllow : String := "allow"
def strRememberEntry : String := "rememberEntry"
def strUpdatedInput : String := "updatedInput"
def strMessage : String := "message"
def strTimeout : String := "timeout"
def strDisallowedMsg : String := "Tool disallowed by settings"
def strTimedOutMsg : String := "Permission request timed out"
def strDeniedMsg : String := "User denied tool use"

/-- The allow-and-remember mutation: when the decision carries a truthy
string rememberEntry, push it onto allowedTools unless already
included, and filter every strictly equal entry out of
disallowedTools. -/
def applyRemember (d : JSVal) (ts : ToolsSettings) : ToolsSettings :=
  let re := getFieldD d strRememberEntry
  match re with
  | .vStr s =>
    if s.data.isEmpty then ts
    else
      { allowedTools :=
          if ts.allowedTools.any (fun e => strictEq e re) then ts.allowedTools
          else ts.allowedTools ++ [re],
        disallowedTools := ts.disallowedTools.filter (fun e => !(strictEq e re)),
        skipPermissions := ts.skipPermissions }
  | _ => ts

/-- The canUseTool callback wired into createSession, with the awaited
approval outcome passed in explicitly (the wait itself is the Approval
Gate model above). requestId and sessionId are the fresh token and the
session identity the emitted signals carry. -/
def canUseTool (permissionMode : String) (ts : ToolsSettings) (toolName input : JSVal)
    (requestId : String) (sessionId : JSVal) (gate : GateResult) :
    Except String CanUseResult :=
  if permissionMode == strBypass || ts.skipPermissions then
    .ok ⟨.allow .vNull, [], ts⟩
  else
    match someMatch ts.disallowedTools toolName input with
    | .error msg => .error msg
    | .ok true => .ok ⟨.deny (.vStr strDisallowedMsg), [], ts⟩
    | .ok false =>
      match someMatch ts.allowedTools toolName input with
      | .error msg => .error msg
      | .ok true => .ok ⟨.allow .vNull, [], ts⟩
      | .ok false =>
        let req := Signal.permissionRequest requestId toolName input sessionId
        match gate with
        | .timedOut =>
          .ok ⟨.deny (.vStr strTimedOutMsg),
               [req, Signal.permissionCancelled requestId strTimeout sessionId], ts⟩
        | .resolved d =>
          if !truthy d then
            .ok ⟨.deny (.vStr strTimedOutMsg), [req], ts⟩
          else if truthy (getFieldD d strAllow) then
            .ok ⟨.allow (jsOrNullish (getFieldD d strUpdatedInput)), [req],
                 applyRemember d ts⟩
          else
            .ok ⟨.deny (jsCoalesce (getFieldD d strMessage) (.vStr strDeniedMsg)), [req], ts⟩

/-
Policy normalization (normalizeToolsSettings) and the dispatch
(queryLettaSDK) with its stream translation loop.
-/

def strToolsSettings : String := "toolsSettings"
def strAllowedTools : String := "allowedTools"
def strDisallowedTools : String := "disallowedTools"
def strSkipPermissions : String := "skipPermissions"
def strSessionId : String := "sessionId"
def strNoAgentId : String := "Letta SDK did not return agentId"

/-- Array.isArray(x) ? x : [] on the modelled values. -/
def arrElems : JSVal → List JSVal
  | .vArr l => l
  | _ => []

/-- normalizeToolsSettings(options): read options.toolsSettings,
defaulting a falsy value to an empty object, then default each tool
list to [] unless it is an array and coerce skipPermissions with
Boolean. Property reads are the throwing jsGet so that totality is a
statement, not an assumption. -/
def normalizeToolsSettings (options : JSVal) : Except String ToolsSettings :=
  match jsGet options strToolsSettings with
  | .error msg => .error msg
  | .ok raw =>
    let ts := if truthy raw then raw else .vObj []
    match jsGet ts strAllowedTools with
    | .error msg => .error msg
    | .ok a =>
      match jsGet ts strDisallowedTools with
      | .error msg => .error msg
      | .ok dz =>
        match jsGet ts strSkipPermissions with
        | .error msg => .error msg
        | .ok sk => .ok ⟨arrElems a, arrElems dz, truthy sk⟩

/-- The typed events the SDK stream yields, as the loop distinguishes
them by their type tag; an unrecognized tag is the last constructor. -/
inductive LettaMsg where
  | streamEvent : JSVal → LettaMsg
  | assistant : JSVal → LettaMsg
  | toolCall : JSVal → JSVal → JSVal → LettaMsg
  | toolResult : JSVal → JSVal → JSVal → LettaMsg
  | result : JSVal → JSVal → JSVal → JSVal → LettaMsg
  | other : LettaMsg

/-- Whether a stream message is the terminal result event. -/
def isResult : LettaMsg → Bool
  | .result _ _ _ _ => true
  | _ => false

def strRole : String := "role"
def strContent : String := "content"
def strType : String := "type"
def strText : String := "text"
def strAssistant : String := "assistant"
def strUser : String := "user"
def strToolUse : String := "tool_use"
def strToolResult : String := "tool_result"
def strId : String := "id"
def strName : String := "name"
def strInput : String := "input"
def strToolUseId : String := "tool_use_id"
def strIsError : String := "is_error"

/-- The letta-response signals one non-terminal stream message turns
into (none for an unrecognized message type). -/
def translateMsg (agentId : JSVal) : LettaMsg → List Signal
  | .streamEvent e => [Signal.response e agentId]
  | .assistant c =>
    [Signal.response
      (.vObj [(strRole, .vStr strAssistant),
              (strContent, .vArr [.vObj [(strType, .vStr strText), (strText, c)]])])
      agentId]
  | .toolCall callId toolName toolInput =>
    [Signal.response
      (.vObj [(strRole, .vStr strAssistant),
              (strContent, .vArr [.vObj [(strType, .vStr strToolUse), (strId, callId),
                                         (strName, toolName), (strInput, toolInput)]])])
      agentId]
  | .toolResult callId content isErr =>
    [Signal.response
      (.vObj [(strRole, .vStr strUser),
              (strContent, .vArr [.vObj [(strType, .vStr strToolResult),
                                         (strToolUseId, callId), (strContent, content),
                                         (strIsError, .vBool (truthy isErr))]])])
      agentId]
  | .result _ _ _ _ => []
  | .other => []

/-- The stream consumption loop: each non-terminal message is
translated and the loop continues; the first terminal result message
emits the completion signal with exit code 0 on success and 1
otherwise and breaks, so everything after it is ignored. -/
def processStream (agentId : JSVal) : List LettaMsg → List Signal
  | [] => []
  | m :: rest =>
    match m with
    | .result succ dur cost conv =>
      [Signal.complete agentId (if truthy succ then 0 else 1) (truthy succ) dur cost conv]
    | _ => translateMsg agentId m ++ processStream agentId rest

/-- What session.initialize() returned. -/
structure LettaInit where
  agentId : JSVal
  conversationId : JSVal

/-- The observable behavior of the backend session for one dispatch:
the outcome of initialize, the outcome of send, the stream messages
yielded, and whether the stream iterator itself raises after the
yielded messages (only reachable when no terminal result broke the
loop first). -/
structure Backend where
  initResult : Except String LettaInit
  sendResult : Except String Unit
  streamMsgs : List LettaMsg
  streamTail : Except String Unit

/-- Outcome of one queryLettaSDK dispatch: the registry of active
sessions afterwards, the signals emitted in order, and whether the
prompt was dispatched to the session. -/
structure DispatchResult where
  registry : List JSVal
  emitted : List Signal
  promptSent : Bool

/-- isLettaSDKSessionActive: membership in the activeSessions map,
whose keys compare by SameValueZero. -/
def isLettaSDKSessionActive (registry : List JSVal) (agentId : JSVal) : Bool :=
  registry.any (fun k => strictEq k agentId)

/-- Map.set on the activeSessions keys. -/
def registrySet (registry : List JSVal) (agentId : JSVal) : List JSVal :=
  if isLettaSDKSessionActive registry agentId then registry else registry ++ [agentId]

/-- queryLettaSDK(command, options, ws), with the backend behavior and
the current registry passed explicitly. Initialization failure or a
falsy returned agentId emit a single letta-error and stop before any
registration; otherwise the session is registered, session-created is
emitted, a nonempty trimmed prompt is sent (a send failure emits
letta-error and stops), and the stream is drained by processStream; a
stream iterator failure after the yielded messages emits letta-error
unless a terminal result already broke the loop. -/
def queryLettaSDK (command : String) (options : JSVal) (b : Backend)
    (registry : List JSVal) : DispatchResult :=
  let requestedAgentId := jsOr (getFieldD options strSessionId) .vNull
  match b.initResult with
  | .error msg => ⟨registry, [Signal.errorSig (.vStr msg) requestedAgentId], false⟩
  | .ok init =>
    if !truthy init.agentId then
      ⟨registry, [Signal.errorSig (.vStr strNoAgentId) .vNull], false⟩
    else
      let agentId := init.agentId
      let registry2 := registrySet registry agentId
      let created := Signal.sessionCreated agentId init.conversationId
      let promptSent := !(jsTrim command).data.isEmpty
      match (if promptSent then b.sendResult else .ok ()) with
      | .error msg => ⟨registry2, [created, Signal.errorSig (.vStr msg) agentId], promptSent⟩
      | .ok _ =>
        let streamed := processStream agentId b.streamMsgs
        let tailSigs :=
          if b.streamMsgs.any isResult then []
          else
            match b.streamTail with
            | .error msg => [Signal.errorSig (.vStr msg) agentId]
            | .ok _ => []
        ⟨registry2, created :: (streamed ++ tailSigs), promptSent⟩

def strReqOne : String := "letta_r1"
def strReqTwo : String := "letta_r2"
def strEmpty : String := ""
def strBashLsWild : String := "Bash(ls:*)"
def strBashLsLaWild : String := "Bash(ls -la:*)"
def strLs : String := "ls"
def strLsLa : String := "ls -la"
def strDefault : String := "default"

def strBoom : String := "boom"
def strAgentOne : String := "agent-1"
def strConvOne : String := "conv-1"
def strHi : String := "hi"
def strBye : String := "bye"

/-- Whether the value is an object literal. -/
def isObjVal : JSVal → Bool
  | .vObj _ => true
  | _ => false

/-- Array.isArray. -/
def isArrVal : JSVal → Bool
  | .vArr _ => true
  | _ => false

/-- Whether a signal is the completion signal. -/
def isCompleteSig : Signal → Bool
  | .complete _ _ _ _ _ _ => true
  | _ => false

/-- Whether a signal is the error signal. -/
def isErrorSig : Signal → Bool
  | .errorSig _ _ => true
  | _ => false

/-- Whether a signal is an approval-request signal. -/
def isRequestSig : Signal → Bool
  | .permissionRequest _ _ _ _ => true
  | _ => false

/-
Lemmas: Approval Gate invariants.
-/

/-- Invariant of one approval request: the token is fixed, the pending
map entry and the timer live exactly while the request is unsettled,
onCancel has fired at most once and only on a settled request. -/
def gateInv (rid : String) (s : GateState) : Prop :=
  s.requestId = rid ∧ s.pending = !s.settled ∧ s.timerActive = !s.settled ∧
  s.onCancelCount ≤ 1 ∧ (s.settled = false → s.onCancelCount = 0)

lemma gateInv_init (rid : String) : gateInv rid (gateInit rid) := by
  refine ⟨rfl, rfl, rfl, ?_, fun _ => rfl⟩
  exact Nat.zero_le 1

lemma gateInv_step (rid : String) (s : GateState) (e : GateEvent)
    (h : gateInv rid s) : gateInv rid (gateStep s e) := by
  obtain ⟨h1, h2, h3, h4, h5⟩ := h
  cases e with
  | resolveCall t d =>
    by_cases hc : (t == s.requestId && s.pending) = true
    · by_cases hs : s.settled = true
      · simp only [gateStep, hc, if_true, gateFinalize, hs, if_true]
        exact ⟨h1, h2, h3, h4, h5⟩
      · replace hs : s.settled = false := by
          cases hsv : s.settled
          · rfl
          · exact absurd hsv hs
        simp only [gateStep, hc, if_true, gateFinalize, hs, Bool.false_eq_true, if_false]
        exact ⟨h1, rfl, rfl, h4, fun hcon => by cases hcon⟩
    · simp only [gateStep, hc, if_false]
      exact ⟨h1, h2, h3, h4, h5⟩
  | timerFire =>
    by_cases ht : s.timerActive = true
    · have hs : s.settled = false := by
        rw [ht] at h3
        cases hsv : s.settled
        · rfl
        · rw [hsv] at h3; cases h3
      simp only [gateStep, ht, if_true, gateFinalize, hs, Bool.false_eq_true, if_false]
      refine ⟨h1, rfl, rfl, ?_, fun hcon => by cases hcon⟩
      have := h5 hs
      simp [this]
    · simp only [gateStep, ht, if_false]
      exact ⟨h1, h2, h3, h4, h5⟩

lemma gateInv_foldl (rid : String) (events : List GateEvent) :
    ∀ s, gateInv rid s → gateInv rid (events.foldl gateStep s) := by
  induction events with
  | nil => intro s h; exact h
  | cons e rest ih =>
    intro s h
    exact ih (gateStep s e) (gateInv_step rid s e h)

lemma gateInv_run (rid : String) (events : List GateEvent) :
    gateInv rid (gateRun rid events) :=
  gateInv_foldl rid events (gateInit rid) (gateInv_init rid)

lemma gateStep_settled (s : GateState) (hp : s.pending = false)
    (ht : s.timerActive = false) (e : GateEvent) : gateStep s e = s := by
  cases e with
  | resolveCall t d => simp [gateStep, hp]
  | timerFire => simp [gateStep, ht]

/-- Claim C1: every approval request settles at most once. In every
reachable state of a request, once it has settled the token is gone
from the pending set and the timer is cleared, and every further event
(resolving again, resolving after timeout, or a timer firing) leaves
the state, and hence the fixed outcome and the number of onCancel
invocations, unchanged; resolving a foreign token never changes the
state; and onCancel is invoked at most once overall, so it never fires
after an external resolution settled the request. -/
theorem approvalGate_settles_at_most_once (rid : String) (events : List GateEvent) :
    ((gateRun rid events).settled = true →
      (gateRun rid events).pending = false ∧
      (gateRun rid events).timerActive = false ∧
      ∀ e, gateStep (gateRun rid events) e = gateRun rid events) ∧
    (∀ t d, t ≠ rid →
      gateStep (gateRun rid events) (.resolveCall t d) = gateRun rid events) ∧
    (gateRun rid events).onCancelCount ≤ 1 := by
  obtain ⟨h1, h2, h3, h4, h5⟩ := gateInv_run rid events
  refine ⟨?_, ?_, h4⟩
  · intro hs
    have hp : (gateRun rid events).pending = false := by rw [h2, hs]; rfl
    have ht : (gateRun rid events).timerActive = false := by rw [h3, hs]; rfl
    exact ⟨hp, ht, gateStep_settled _ hp ht⟩
  · intro t d hne
    have : (t == (gateRun rid events).requestId) = false := by
      rw [h1]
      exact beq_eq_false_iff_ne.mpr hne
    simp [gateStep, this]

/-- Witness for C1 at a concrete trace: an external resolution followed
by a timer firing; onCancel never runs. -/
theorem approvalGate_settles_at_most_once_w :
    (gateRun strReqOne [.resolveCall strReqOne (.vObj []), .timerFire]).onCancelCount ≤ 1 :=
  (approvalGate_settles_at_most_once strReqOne
    [.resolveCall strReqOne (.vObj []), .timerFire]).2.2

/-
Lemmas: Permission Matcher.
-/

lemma data_isEmpty_false (s : String) (h : s ≠ strEmpty) : s.data.isEmpty = false := by
  cases s with
  | mk l =>
    cases l with
    | nil => exact absurd rfl h
    | cons a as => rfl

lemma truthy_vStr_true (s : String) (h : s ≠ strEmpty) : truthy (.vStr s) = true := by
  show (!s.data.isEmpty) = true
  rw [data_isEmpty_false s h]
  rfl

lemma strictEq_vStr (a b : String) : strictEq (.vStr a) (.vStr b) = (a == b) := rfl

/-- Claim C2, counterexample: a truthy non-string policy entry (the
number 42) reaches entry.match and the matcher throws a TypeError
instead of returning a boolean. -/
theorem matcher_throws_on_nonstring_entry :
    matchesToolPermission (.vNum 42) (.vStr strBash) .vNull =
      .error strMatchTypeError := rfl

/-- Claim C2, amended: for every policy entry that is falsy or a
string, every tool name and every input, matchesToolPermission returns
a boolean and never throws (and, being a function of its arguments, is
deterministic); malformed entries of those shapes simply fail to
match. A truthy non-string entry instead raises a TypeError. -/
theorem matcher_total_on_string_entries (entry toolName input : JSVal)
    (h : truthy entry = false ∨ ∃ s, entry = JSVal.vStr s) :
    ∃ b, matchesToolPermission entry toolName input = .ok b := by
  rcases h with hf | ⟨s, rfl⟩
  · exact ⟨false, by simp [matchesToolPermission, hf]⟩
  · unfold matchesToolPermission
    split
    · exact ⟨false, rfl⟩
    · split
      · exact ⟨true, rfl⟩
      · rcases hbw : bashWildcard s with _ | p
        · simp only [hbw]
          exact ⟨false, rfl⟩
        · simp only [hbw]
          split
          · exact ⟨_, rfl⟩
          · exact ⟨false, rfl⟩

/-- Witness for the amended C2 at a concrete wildcard entry and a bare
null input: the matcher returns a boolean, here false. -/
theorem matcher_total_on_string_entries_w :
    matchesToolPermission (.vStr strBashLsWild) (.vStr strBash) .vNull = .ok false := by
  obtain ⟨b, hb⟩ := matcher_total_on_string_entries (.vStr strBashLsWild)
    (.vStr strBash) .vNull (Or.inr ⟨strBashLsWild, rfl⟩)
  have hb2 : (Except.ok b : Except String Bool) = .ok false := hb.symm.trans rfl
  rw [hb, Except.ok.inj hb2]

/-- Claim C3, counterexample: the empty-string entry is strictly equal
to the empty-string tool name, yet the matcher returns false, because a
falsy entry or tool name is rejected before the equality test. -/
theorem matcher_empty_names_no_match :
    JSVal.vStr strEmpty = JSVal.vStr strEmpty ∧
    matchesToolPermission (.vStr strEmpty) (.vStr strEmpty) .vNull = .ok false :=
  ⟨rfl, rfl⟩

/-- Claim C3, amended: for every nonempty string entry, nonempty string
tool name and arbitrary input, the matcher returns exactly: true on
strict name equality, or, for a Bash prefix-wildcard entry, true
exactly when the tool name is Bash and the trimmed command extracted
from the input (a bare string, or the string command field of a
structured input) is nonempty and starts with the literal captured
prefix; every other shape returns false. An empty (falsy) entry or
tool name never matches, even when equal. -/
theorem matcher_match_characterization (e tn : String) (input : JSVal)
    (he : e ≠ strEmpty) (htn : tn ≠ strEmpty) :
    matchesToolPermission (.vStr e) (.vStr tn) input =
      .ok ((e == tn) ||
        (match bashWildcard e with
         | some p => (tn == strBash) && !(commandOf input).data.isEmpty
             && strStarts (commandOf input) p
         | none => false)) := by
  have hcond : (!truthy (JSVal.vStr e) || !truthy (JSVal.vStr tn)) = false := by
    rw [truthy_vStr_true e he, truthy_vStr_true tn htn]
    rfl
  unfold matchesToolPermission
  rw [hcond, strictEq_vStr]
  by_cases heq : (e == tn) = true
  · simp [heq]
  · have heq2 : (e == tn) = false := by
      cases hv : (e == tn)
      · rfl
      · exact absurd hv heq
    simp only [heq2, Bool.false_eq_true, if_false, Bool.false_or]
    rcases hbw : bashWildcard e with _ | p
    · simp only [hbw]
    · simp only [hbw, strictEq_vStr]
      by_cases htb : (tn == strBash) = true
      · simp only [htb, if_true, Bool.true_and]
        by_cases hce : (commandOf input).data.isEmpty = true
        · simp [hce]
        · have hce2 : (commandOf input).data.isEmpty = false := by
            cases hv : (commandOf input).data.isEmpty
            · rfl
            · exact absurd hv hce
          simp [hce2]
      · have htb2 : (tn == strBash) = false := by
          cases hv : (tn == strBash)
          · rfl
          · exact absurd hv htb
        simp [htb2]

/-- Witness for the amended C3: the Bash(ls:*) wildcard against the
Bash tool with a structured input whose command is ls -la matches. -/
theorem matcher_match_characterization_w :
    matchesToolPermission (.vStr strBashLsWild) (.vStr strBash)
        (.vObj [(strCommand, .vStr strLsLa)]) = .ok true :=
  matcher_match_characterization strBashLsWild strBash
    (.vObj [(strCommand, .vStr strLsLa)]) (by decide) (by decide)

/-
Lemmas: the canUseTool authorization callback.
-/

lemma strictEq_to_eq_vStr (e : JSVal) (s : String)
    (h : strictEq e (.vStr s) = true) : e = .vStr s := by
  cases e with
  | vStr a =>
    have ha : a = s := by
      have : (a == s) = true := h
      exact beq_iff_eq.mp this
    rw [ha]
  | vUndefined => cases h
  | vNull => cases h
  | vBool b => cases h
  | vNum n => cases h
  | vArr l => cases h
  | vObj f => cases h

lemma someMatch_of_mem (l : List JSVal) (toolName input e0 : JSVal)
    (htot : ∀ e ∈ l, ∃ b, matchesToolPermission e toolName input = .ok b)
    (hmem : e0 ∈ l) (hm : matchesToolPermission e0 toolName input = .ok true) :
    someMatch l toolName input = .ok true := by
  induction l with
  | nil => cases hmem
  | cons e rest ih =>
    obtain ⟨b, hb⟩ := htot e (List.mem_cons_self e rest)
    cases b with
    | true => simp [someMatch, hb]
    | false =>
      rcases List.mem_cons.mp hmem with heq | hmem2
      · rw [heq] at hm
        rw [hm] at hb
        simp at hb
      · simp only [someMatch, hb]
        exact ih (fun x hx => htot x (List.mem_cons_of_mem e hx)) hmem2

/-- Effect of the allow-and-remember mutation when the decision carries
a nonempty string rememberEntry: the skip flag is untouched, the entry
is in the allowed list, every allowed entry is an old one or the new
entry, and the disallowed list is the old one with every strictly equal
entry filtered out. -/
lemma applyRemember_string (d : JSVal) (ts : ToolsSettings) (s : String)
    (hre : getFieldD d strRememberEntry = .vStr s) (hs : s ≠ strEmpty) :
    (applyRemember d ts).skipPermissions = ts.skipPermissions ∧
    JSVal.vStr s ∈ (applyRemember d ts).allowedTools ∧
    (∀ e ∈ (applyRemember d ts).allowedTools, e ∈ ts.allowedTools ∨ e = .vStr s) ∧
    (applyRemember d ts).disallowedTools =
      ts.disallowedTools.filter (fun e => !(strictEq e (.vStr s))) := by
  unfold applyRemember
  rw [hre]
  simp only [data_isEmpty_false s hs, Bool.false_eq_true, if_false]
  by_cases hany : (ts.allowedTools.any fun e => strictEq e (.vStr s)) = true
  · simp only [hany, if_true]
    obtain ⟨e, hmem, heq⟩ := List.any_eq_true.mp hany
    have he : e = .vStr s := strictEq_to_eq_vStr e s heq
    refine ⟨by trivial, he ▸ hmem, fun x hx => Or.inl hx, by trivial⟩
  · simp only [hany, if_false]
    refine ⟨by trivial, List.mem_append.mpr (Or.inr (List.mem_singleton.mpr rfl)), ?_, by trivial⟩
    intro x hx
    rcases List.mem_append.mp hx with h1 | h1
    · exact Or.inl h1
    · exact Or.inr (List.mem_singleton.mp h1)

/-- Claim C6: whenever the skip-all flag of the policy is set, the
callback allows every tool call, emits no signal, and leaves the
policy unchanged, whatever the lists contain and whatever the approval
gate would have produced. -/
theorem canUseTool_skip_allows_all (pm : String) (ts : ToolsSettings)
    (toolName input : JSVal) (rid : String) (sid : JSVal) (gate : GateResult)
    (h : ts.skipPermissions = true) :
    canUseTool pm ts toolName input rid sid gate = .ok ⟨.allow .vNull, [], ts⟩ := by
  simp [canUseTool, h]

/-- Witness for C6: skipPermissions set while a disallowed entry would
match the call, and the gate would have timed out; still an immediate
allow with no emission. -/
theorem canUseTool_skip_allows_all_w :
    canUseTool strDefault ⟨[], [.vStr strBash], true⟩ (.vStr strBash) .vNull
        strReqOne .vNull .timedOut =
      .ok ⟨.allow .vNull, [], ⟨[], [.vStr strBash], true⟩⟩ :=
  canUseTool_skip_allows_all strDefault ⟨[], [.vStr strBash], true⟩
    (.vStr strBash) .vNull strReqOne .vNull .timedOut rfl

/-- Claim C7, counterexample: with the skip-all flag clear, a
disallowed entry matching the call, and no allowed entry at all, the
callback still allows when the permission mode is bypassPermissions,
contradicting the claimed deny. -/
theorem bypass_mode_overrides_disallowed :
    someMatch [JSVal.vStr strBash] (.vStr strBash) .vNull = .ok true ∧
    canUseTool strBypass ⟨[], [.vStr strBash], false⟩ (.vStr strBash) .vNull
        strReqOne .vNull .timedOut =
      .ok ⟨.allow .vNull, [], ⟨[], [.vStr strBash], false⟩⟩ :=
  ⟨rfl, rfl⟩

/-- Claim C7, amended: whenever the permission mode is not
bypassPermissions, the skip-all flag is not set, and the short-circuit
scan of the disallowed entries matches the tool call (so no earlier
disallowed entry threw), the callback denies with the fixed reason and
emits no approval-request signal, whatever the allowed entries and the
gate outcome. -/
theorem canUseTool_denies_on_disallowed_match (pm : String) (ts : ToolsSettings)
    (toolName input : JSVal) (rid : String) (sid : JSVal) (gate : GateResult)
    (hpm : pm ≠ strBypass) (hskip : ts.skipPermissions = false)
    (hdis : someMatch ts.disallowedTools toolName input = .ok true) :
    canUseTool pm ts toolName input rid sid gate =
      .ok ⟨.deny (.vStr strDisallowedMsg), [], ts⟩ := by
  have hb : (pm == strBypass) = false := beq_eq_false_iff_ne.mpr hpm
  simp [canUseTool, hb, hskip, hdis]

/-- Witness for the amended C7: default mode, a disallowed exact-name
entry matching the call. -/
theorem canUseTool_denies_on_disallowed_match_w :
    canUseTool strDefault ⟨[], [.vStr strBash], false⟩ (.vStr strBash) .vNull
        strReqOne .vNull .timedOut =
      .ok ⟨.deny (.vStr strDisallowedMsg), [], ⟨[], [.vStr strBash], false⟩⟩ :=
  canUseTool_denies_on_disallowed_match strDefault ⟨[], [.vStr strBash], false⟩
    (.vStr strBash) .vNull strReqOne .vNull .timedOut (by decide) rfl rfl

/-- Claim C4: when no policy entry decides the call and the approval
gate times out, the callback emits exactly one approval-request signal
followed by exactly one cancellation signal carrying the request token
and the reason timeout, then returns a deny decision whose reason says
the request timed out; no exception is raised and the policy is
unchanged. -/
theorem canUseTool_timeout_cancels_then_denies (pm : String) (ts : ToolsSettings)
    (toolName input : JSVal) (rid : String) (sid : JSVal)
    (hpm : pm ≠ strBypass) (hskip : ts.skipPermissions = false)
    (hdis : someMatch ts.disallowedTools toolName input = .ok false)
    (halw : someMatch ts.allowedTools toolName input = .ok false) :
    canUseTool pm ts toolName input rid sid .timedOut =
      .ok ⟨.deny (.vStr strTimedOutMsg),
           [Signal.permissionRequest rid toolName input sid,
            Signal.permissionCancelled rid strTimeout sid], ts⟩ := by
  have hb : (pm == strBypass) = false := beq_eq_false_iff_ne.mpr hpm
  simp [canUseTool, hb, hskip, hdis, halw]

/-- Witness for C4: an empty policy and a timed-out gate. -/
theorem canUseTool_timeout_cancels_then_denies_w :
    canUseTool strDefault ⟨[], [], false⟩ (.vStr strBash) .vNull strReqOne .vNull .timedOut =
      .ok ⟨.deny (.vStr strTimedOutMsg),
           [Signal.permissionRequest strReqOne (.vStr strBash) .vNull .vNull,
            Signal.permissionCancelled strReqOne strTimeout .vNull], ⟨[], [], false⟩⟩ :=
  canUseTool_timeout_cancels_then_denies strDefault ⟨[], [], false⟩
    (.vStr strBash) .vNull strReqOne .vNull (by decide) rfl rfl rfl

/-- Claim C5, counterexample: after a granted approval remembers
Bash(ls:*), a later Bash call with command ls -la is matched by the
remembered entry, yet the callback denies it, because the disallowed
entry Bash(ls -la:*) was not equal to the remembered entry, survived
the removal, and is checked first. -/
theorem remember_not_overriding_disallowed :
    canUseTool strDefault ⟨[], [.vStr strBashLsLaWild], false⟩ (.vStr strBash)
        (.vObj [(strCommand, .vStr strLs)]) strReqOne .vNull
        (.resolved (.vObj [(strAllow, .vBool true),
                           (strRememberEntry, .vStr strBashLsWild)])) =
      .ok ⟨.allow .vNull,
           [Signal.permissionRequest strReqOne (.vStr strBash)
             (.vObj [(strCommand, .vStr strLs)]) .vNull],
           ⟨[.vStr strBashLsWild], [.vStr strBashLsLaWild], false⟩⟩ ∧
    matchesToolPermission (.vStr strBashLsWild) (.vStr strBash)
        (.vObj [(strCommand, .vStr strLsLa)]) = .ok true ∧
    canUseTool strDefault ⟨[.vStr strBashLsWild], [.vStr strBashLsLaWild], false⟩
        (.vStr strBash) (.vObj [(strCommand, .vStr strLsLa)]) strReqTwo .vNull .timedOut =
      .ok ⟨.deny (.vStr strDisallowedMsg), [],
           ⟨[.vStr strBashLsWild], [.vStr strBashLsLaWild], false⟩⟩ :=
  ⟨rfl, rfl, rfl⟩

/-- Claim C5, amended: when an approval decision is truthy with a
truthy allow and carries a nonempty string rememberEntry, the callback
appends that entry to the in-memory allowed list (unless already
present), removes every strictly equal entry from the disallowed list,
and returns allow after emitting only the one approval-request signal;
and every subsequent tool call in the same dispatch that the
remembered entry matches, that the scan of the remaining disallowed
entries does not match, and on which the pre-existing allowed entries
do not throw, is allowed without emitting any signal. -/
theorem remember_allows_subsequent_matches (pm : String) (ts : ToolsSettings)
    (toolName input : JSVal) (rid : String) (sid : JSVal) (d : JSVal) (s : String)
    (hpm : pm ≠ strBypass) (hskip : ts.skipPermissions = false)
    (hdis : someMatch ts.disallowedTools toolName input = .ok false)
    (halw : someMatch ts.allowedTools toolName input = .ok false)
    (hd : truthy d = true)
    (hallow : truthy (getFieldD d strAllow) = true)
    (hre : getFieldD d strRememberEntry = .vStr s)
    (hs : s ≠ strEmpty) :
    canUseTool pm ts toolName input rid sid (.resolved d) =
      .ok ⟨.allow (jsOrNullish (getFieldD d strUpdatedInput)),
           [Signal.permissionRequest rid toolName input sid], applyRemember d ts⟩ ∧
    JSVal.vStr s ∈ (applyRemember d ts).allowedTools ∧
    (∀ e ∈ (applyRemember d ts).disallowedTools, strictEq e (.vStr s) = false) ∧
    ∀ (tn2 inp2 : JSVal) (rid2 : String) (sid2 : JSVal) (g2 : GateResult),
      matchesToolPermission (.vStr s) tn2 inp2 = .ok true →
      someMatch (applyRemember d ts).disallowedTools tn2 inp2 = .ok false →
      (∀ e ∈ ts.allowedTools, ∃ b, matchesToolPermission e tn2 inp2 = .ok b) →
      canUseTool pm (applyRemember d ts) tn2 inp2 rid2 sid2 g2 =
        .ok ⟨.allow .vNull, [], applyRemember d ts⟩ := by
  have hb : (pm == strBypass) = false := beq_eq_false_iff_ne.mpr hpm
  obtain ⟨hskip2, hmem2, hold2, hfil2⟩ := applyRemember_string d ts s hre hs
  refine ⟨?_, hmem2, ?_, ?_⟩
  · simp [canUseTool, hb, hskip, hdis, halw, hd, hallow]
  · intro e hmem
    rw [hfil2] at hmem
    have := List.mem_filter.mp hmem
    cases hv : strictEq e (.vStr s)
    · rfl
    · rw [hv] at this
      simp at this
  · intro tn2 inp2 rid2 sid2 g2 hm2 hdis2 htot2
    have halw2 : someMatch (applyRemember d ts).allowedTools tn2 inp2 = .ok true := by
      refine someMatch_of_mem _ tn2 inp2 (.vStr s) ?_ hmem2 hm2
      intro e hmem
      rcases hold2 e hmem with hin | heq
      · exact htot2 e hin
      · exact ⟨true, heq ▸ hm2⟩
    have hskip3 : (applyRemember d ts).skipPermissions = false := by
      rw [hskip2, hskip]
    simp [canUseTool, hb, hskip3, hdis2, halw2]

/-- Witness for the amended C5: the spec scenario, starting from an
empty policy, approving a Bash ls call and remembering Bash(ls:*). -/
theorem remember_allows_subsequent_matches_w :
    canUseTool strDefault ⟨[], [], false⟩ (.vStr strBash)
        (.vObj [(strCommand, .vStr strLs)]) strReqOne .vNull
        (.resolved (.vObj [(strAllow, .vBool true),
                           (strRememberEntry, .vStr strBashLsWild)])) =
      .ok ⟨.allow (jsOrNullish (getFieldD
             (.vObj [(strAllow, .vBool true), (strRememberEntry, .vStr strBashLsWild)])
             strUpdatedInput)),
           [Signal.permissionRequest strReqOne (.vStr strBash)
             (.vObj [(strCommand, .vStr strLs)]) .vNull],
           applyRemember
             (.vObj [(strAllow, .vBool true), (strRememberEntry, .vStr strBashLsWild)])
             ⟨[], [], false⟩⟩ ∧
    JSVal.vStr strBashLsWild ∈ (applyRemember
        (.vObj [(strAllow, .vBool true), (strRememberEntry, .vStr strBashLsWild)])
        ⟨[], [], false⟩).allowedTools :=
  ⟨(remember_allows_subsequent_matches strDefault ⟨[], [], false⟩ (.vStr strBash)
      (.vObj [(strCommand, .vStr strLs)]) strReqOne .vNull
      (.vObj [(strAllow, .vBool true), (strRememberEntry, .vStr strBashLsWild)])
      strBashLsWild (by decide) rfl rfl rfl rfl rfl rfl (by decide)).1,
   (remember_allows_subsequent_matches strDefault ⟨[], [], false⟩ (.vStr strBash)
      (.vObj [(strCommand, .vStr strLs)]) strReqOne .vNull
      (.vObj [(strAllow, .vBool true), (strRememberEntry, .vStr strBashLsWild)])
      strBashLsWild (by decide) rfl rfl rfl rfl rfl rfl (by decide)).2.1⟩

/-
Lemmas: stream translation and the dispatch.
-/

lemma translateMsg_no_complete (aid : JSVal) (m : LettaMsg) :
    ∀ s ∈ translateMsg aid m, isCompleteSig s = false := by
  intro s hs
  cases m with
  | streamEvent e => rw [List.mem_singleton.mp hs]; rfl
  | assistant c => rw [List.mem_singleton.mp hs]; rfl
  | toolCall a b c => rw [List.mem_singleton.mp hs]; rfl
  | toolResult a b c => rw [List.mem_singleton.mp hs]; rfl
  | result a b c d => cases hs
  | other => cases hs

lemma processStream_cons_non_result (aid : JSVal) (m : LettaMsg)
    (rest : List LettaMsg) (hm : isResult m = false) :
    processStream aid (m :: rest) = translateMsg aid m ++ processStream aid rest := by
  cases m with
  | result a b c d => simp [isResult] at hm
  | streamEvent e => rfl
  | assistant c => rfl
  | toolCall a b c => rfl
  | toolResult a b c => rfl
  | other => rfl

lemma processStream_append (aid : JSVal) (l1 l2 : List LettaMsg)
    (h : ∀ m ∈ l1, isResult m = false) :
    processStream aid (l1 ++ l2) = processStream aid l1 ++ processStream aid l2 := by
  induction l1 with
  | nil => rfl
  | cons m rest ih =>
    have hm : isResult m = false := h m (List.mem_cons_self m rest)
    have ih2 := ih (fun x hx => h x (List.mem_cons_of_mem m hx))
    rw [List.cons_append, processStream_cons_non_result aid m _ hm,
      processStream_cons_non_result aid m rest hm, ih2, List.append_assoc]

lemma processStream_no_complete (aid : JSVal) (l : List LettaMsg)
    (h : ∀ m ∈ l, isResult m = false) :
    ∀ s ∈ processStream aid l, isCompleteSig s = false := by
  induction l with
  | nil => intro s hs; cases hs
  | cons m rest ih =>
    have hm : isResult m = false := h m (List.mem_cons_self m rest)
    have ih2 := ih (fun x hx => h x (List.mem_cons_of_mem m hx))
    intro s hs
    rw [processStream_cons_non_result aid m rest hm] at hs
    rcases List.mem_append.mp hs with h1 | h1
    · exact translateMsg_no_complete aid m s h1
    · exact ih2 s h1

lemma processStream_result_head (aid succ dur cost conv : JSVal)
    (post : List LettaMsg) :
    processStream aid (LettaMsg.result succ dur cost conv :: post) =
      [Signal.complete aid (if truthy succ then 0 else 1) (truthy succ) dur cost conv] := rfl

/-- The success path of the dispatch, fully reduced: session registered,
session-created emitted, prompt flag computed from the trimmed command,
then the translated stream with the tail error suppressed whenever a
terminal result broke the loop. -/
lemma queryLettaSDK_success (command : String) (options : JSVal) (b : Backend)
    (registry : List JSVal) (init : LettaInit)
    (hinit : b.initResult = .ok init) (haid : truthy init.agentId = true)
    (hsend : b.sendResult = .ok ()) :
    queryLettaSDK command options b registry =
      ⟨registrySet registry init.agentId,
       Signal.sessionCreated init.agentId init.conversationId ::
         (processStream init.agentId b.streamMsgs ++
          (if b.streamMsgs.any isResult then []
           else
             match b.streamTail with
             | .error msg => [Signal.errorSig (.vStr msg) init.agentId]
             | .ok _ => [])),
       !(jsTrim command).data.isEmpty⟩ := by
  simp [queryLettaSDK, hinit, hsend, haid]

/-- Claim C8: when initialization fails, either because the backend
raised or because it returned a falsy session identity, the dispatch
emits exactly one signal, an error signal, registers nothing, sends no
prompt, and leaves isLettaSDKSessionActive unchanged for every
identity. -/
theorem dispatch_init_failure_halts (command : String) (options : JSVal)
    (b : Backend) (registry : List JSVal)
    (h : (∃ msg, b.initResult = .error msg) ∨
         (∃ init, b.initResult = .ok init ∧ truthy init.agentId = false)) :
    (queryLettaSDK command options b registry).registry = registry ∧
    (queryLettaSDK command options b registry).promptSent = false ∧
    (queryLettaSDK command options b registry).emitted.length = 1 ∧
    (∀ s ∈ (queryLettaSDK command options b registry).emitted, isErrorSig s = true) ∧
    (∀ anyId,
      isLettaSDKSessionActive (queryLettaSDK command options b registry).registry anyId =
        isLettaSDKSessionActive registry anyId) := by
  rcases h with ⟨msg, hmsg⟩ | ⟨init, hinit, haid⟩
  · simp only [queryLettaSDK, hmsg]
    refine ⟨by trivial, by trivial, by trivial, ?_, by intro a; trivial⟩
    intro s hs
    rw [List.mem_singleton.mp hs]
    rfl
  · simp only [queryLettaSDK, hinit, haid, Bool.not_false, if_true]
    refine ⟨by trivial, by trivial, by trivial, ?_, by intro a; trivial⟩
    intro s hs
    rw [List.mem_singleton.mp hs]
    rfl

/-- Witness for C8: a backend whose initialize raises. -/
theorem dispatch_init_failure_halts_w :
    (queryLettaSDK strEmpty (.vObj []) ⟨.error strBoom, .ok (), [], .ok ()⟩ []).registry =
      ([] : List JSVal) ∧
    (queryLettaSDK strEmpty (.vObj []) ⟨.error strBoom, .ok (), [], .ok ()⟩ []).promptSent =
      false ∧
    (queryLettaSDK strEmpty (.vObj []) ⟨.error strBoom, .ok (), [], .ok ()⟩ []).emitted.length =
      1 :=
  ⟨(dispatch_init_failure_halts strEmpty (.vObj []) ⟨.error strBoom, .ok (), [], .ok ()⟩ []
      (Or.inl ⟨strBoom, rfl⟩)).1,
   (dispatch_init_failure_halts strEmpty (.vObj []) ⟨.error strBoom, .ok (), [], .ok ()⟩ []
      (Or.inl ⟨strBoom, rfl⟩)).2.1,
   (dispatch_init_failure_halts strEmpty (.vObj []) ⟨.error strBoom, .ok (), [], .ok ()⟩ []
      (Or.inl ⟨strBoom, rfl⟩)).2.2.1⟩

/-- Claim C9: when the stream yields a terminal result event after a
prefix of non-terminal messages, the dispatch emits the session-created
signal, the translations of the prefix (none of which is a completion
signal), and then exactly one completion signal whose exit code is 0
when the result is a success and 1 otherwise, carrying the success
flag, duration, cost and conversation identity; nothing after the
terminal event, and no stream-tail error, contributes any signal. -/
theorem dispatch_terminal_result_completes (command : String) (options : JSVal)
    (b : Backend) (registry : List JSVal) (init : LettaInit)
    (pre post : List LettaMsg) (succ dur cost conv : JSVal)
    (hinit : b.initResult = .ok init)
    (haid : truthy init.agentId = true)
    (hsend : b.sendResult = .ok ())
    (hmsgs : b.streamMsgs = pre ++ LettaMsg.result succ dur cost conv :: post)
    (hpre : ∀ m ∈ pre, isResult m = false) :
    (queryLettaSDK command options b registry).emitted =
      Signal.sessionCreated init.agentId init.conversationId ::
        (processStream init.agentId pre ++
         [Signal.complete init.agentId (if truthy succ then 0 else 1) (truthy succ)
            dur cost conv]) ∧
    (∀ s ∈ processStream init.agentId pre, isCompleteSig s = false) := by
  have hany : b.streamMsgs.any isResult = true := by
    rw [hmsgs]
    simp [List.any_append, List.any_cons, isResult]
  refine ⟨?_, processStream_no_complete init.agentId pre hpre⟩
  rw [queryLettaSDK_success command options b registry init hinit haid hsend]
  simp only [hany, if_true]
  rw [hmsgs, processStream_append init.agentId pre _ hpre, processStream_result_head]
  simp

/-- Witness for C9: a two-message stream whose terminal success result
is followed by a further assistant message that must be ignored. -/
theorem dispatch_terminal_result_completes_w :
    (queryLettaSDK strHi (.vObj [])
        ⟨.ok ⟨.vStr strAgentOne, .vStr strConvOne⟩, .ok (),
         [LettaMsg.assistant (.vStr strHi),
          LettaMsg.result (.vBool true) .vNull .vNull .vNull,
          LettaMsg.assistant (.vStr strBye)], .ok ()⟩ []).emitted =
      Signal.sessionCreated (.vStr strAgentOne) (.vStr strConvOne) ::
        (processStream (.vStr strAgentOne) [LettaMsg.assistant (.vStr strHi)] ++
         [Signal.complete (.vStr strAgentOne) (if truthy (.vBool true) then 0 else 1)
            (truthy (.vBool true)) .vNull .vNull .vNull]) :=
  (dispatch_terminal_result_completes strHi (.vObj [])
    ⟨.ok ⟨.vStr strAgentOne, .vStr strConvOne⟩, .ok (),
     [LettaMsg.assistant (.vStr strHi),
      LettaMsg.result (.vBool true) .vNull .vNull .vNull,
      LettaMsg.assistant (.vStr strBye)], .ok ()⟩ []
    ⟨.vStr strAgentOne, .vStr strConvOne⟩
    [LettaMsg.assistant (.vStr strHi)] [LettaMsg.assistant (.vStr strBye)]
    (.vBool true) .vNull .vNull .vNull rfl rfl rfl rfl
    (by intro m hm; rw [List.mem_singleton.mp hm]; rfl)).1

/-
Lemmas: policy normalization.
-/

lemma jsGet_of_truthy (v : JSVal) (k : String) (h : truthy v = true) :
    jsGet v k = .ok (getFieldD v k) := by
  cases v with
  | vUndefined => cases h
  | vNull => cases h
  | vBool b => rfl
  | vNum n => rfl
  | vStr s => rfl
  | vArr l => rfl
  | vObj f => rfl

lemma arrElems_nil_of_not_arr (v : JSVal) (h : isArrVal v = false) :
    arrElems v = [] := by
  cases v with
  | vArr l => cases h
  | vUndefined => rfl
  | vNull => rfl
  | vBool b => rfl
  | vNum n => rfl
  | vStr s => rfl
  | vObj f => rfl

lemma normalize_of_obj_truthy (fields : List (String × JSVal)) (raw : JSVal)
    (hkeq : getFieldD (.vObj fields) strToolsSettings = raw) (htr : truthy raw = true) :
    normalizeToolsSettings (.vObj fields) = .ok
      ⟨arrElems (getFieldD raw strAllowedTools), arrElems (getFieldD raw strDisallowedTools),
       truthy (getFieldD raw strSkipPermissions)⟩ := by
  unfold normalizeToolsSettings
  have h0 : jsGet (JSVal.vObj fields) strToolsSettings = .ok raw := by
    rw [← hkeq]
    rfl
  rw [h0]
  cases raw with
  | vUndefined => cases htr
  | vNull => cases htr
  | vBool b =>
    simp only [htr, if_true]
    rfl
  | vNum n =>
    simp only [htr, if_true]
    rfl
  | vStr s =>
    simp only [htr, if_true]
    rfl
  | vArr l =>
    simp only [htr, if_true]
    rfl
  | vObj f =>
    simp only [htr, if_true]
    rfl

lemma normalize_of_obj_falsy (fields : List (String × JSVal))
    (hraw2 : truthy (getFieldD (.vObj fields) strToolsSettings) = false) :
    normalizeToolsSettings (.vObj fields) = .ok ⟨[], [], false⟩ := by
  unfold normalizeToolsSettings
  have h0 : jsGet (JSVal.vObj fields) strToolsSettings =
      .ok (getFieldD (.vObj fields) strToolsSettings) := rfl
  rw [h0]
  simp only [hraw2, Bool.false_eq_true, if_false]
  rfl

lemma emptyPolicy_goes_to_gate (pm : String) (toolName input : JSVal)
    (rid : String) (sid : JSVal) (hpm : pm ≠ strBypass) :
    canUseTool pm ⟨[], [], false⟩ toolName input rid sid .timedOut =
      .ok ⟨.deny (.vStr strTimedOutMsg),
           [Signal.permissionRequest rid toolName input sid,
            Signal.permissionCancelled rid strTimeout sid], ⟨[], [], false⟩⟩ := by
  have hb : (pm == strBypass) = false := beq_eq_false_iff_ne.mpr hpm
  simp [canUseTool, hb, someMatch]

/-- Claim C10: for every caller-supplied options object the policy
normalization never fails; an absent or falsy toolsSettings yields
exactly the empty policy, a truthy one yields its two lists when they
are arrays and empty lists otherwise with skipPermissions coerced to a
boolean; and under the empty policy every tool call that matches no
entry reaches the approval gate (an approval-request signal is
emitted) instead of an error being raised. -/
theorem normalizeToolsSettings_total_defaults (options : JSVal)
    (h : isObjVal options = true) :
    ∃ ts, normalizeToolsSettings options = .ok ts ∧
      (truthy (getFieldD options strToolsSettings) = false →
        ts = ⟨[], [], false⟩) ∧
      (truthy (getFieldD options strToolsSettings) = true →
        ts = ⟨arrElems (getFieldD (getFieldD options strToolsSettings) strAllowedTools),
              arrElems (getFieldD (getFieldD options strToolsSettings) strDisallowedTools),
              truthy (getFieldD (getFieldD options strToolsSettings) strSkipPermissions)⟩) ∧
      (isArrVal (getFieldD (getFieldD options strToolsSettings) strAllowedTools) = false →
        ts.allowedTools = []) ∧
      (isArrVal (getFieldD (getFieldD options strToolsSettings) strDisallowedTools) = false →
        ts.disallowedTools = []) ∧
      (∀ pm (toolName input : JSVal) (rid : String) (sid : JSVal), pm ≠ strBypass →
        canUseTool pm ⟨[], [], false⟩ toolName input rid sid .timedOut =
          .ok ⟨.deny (.vStr strTimedOutMsg),
               [Signal.permissionRequest rid toolName input sid,
                Signal.permissionCancelled rid strTimeout sid], ⟨[], [], false⟩⟩) := by
  cases options with
  | vUndefined => cases h
  | vNull => cases h
  | vBool b => cases h
  | vNum n => cases h
  | vStr s => cases h
  | vArr l => cases h
  | vObj fields =>
    by_cases hraw : truthy (getFieldD (JSVal.vObj fields) strToolsSettings) = true
    · have hn : normalizeToolsSettings (JSVal.vObj fields) = .ok
          ⟨arrElems (getFieldD (getFieldD (JSVal.vObj fields) strToolsSettings)
             strAllowedTools),
           arrElems (getFieldD (getFieldD (JSVal.vObj fields) strToolsSettings)
             strDisallowedTools),
           truthy (getFieldD (getFieldD (JSVal.vObj fields) strToolsSettings)
             strSkipPermissions)⟩ :=
        normalize_of_obj_truthy fields _ rfl hraw
      refine ⟨_, hn, ?_, fun _ => rfl, ?_, ?_, ?_⟩
      · intro hf
        rw [hraw] at hf
        cases hf
      · intro hA
        exact arrElems_nil_of_not_arr _ hA
      · intro hD
        exact arrElems_nil_of_not_arr _ hD
      · intro pm toolName input rid sid hpm
        exact emptyPolicy_goes_to_gate pm toolName input rid sid hpm
    · have hraw2 : truthy (getFieldD (JSVal.vObj fields) strToolsSettings) = false := by
        cases hv : truthy (getFieldD (JSVal.vObj fields) strToolsSettings)
        · rfl
        · exact absurd hv hraw
      have hn : normalizeToolsSettings (JSVal.vObj fields) = .ok ⟨[], [], false⟩ :=
        normalize_of_obj_falsy fields hraw2
      refine ⟨⟨[], [], false⟩, hn, fun _ => rfl, ?_, fun _ => rfl, fun _ => rfl, ?_⟩
      · intro ht
        rw [hraw2] at ht
        cases ht
      · intro pm toolName input rid sid hpm
        exact emptyPolicy_goes_to_gate pm toolName input rid sid hpm

/-- Witness for C10: an options object with no toolsSettings at all
normalizes to the empty policy without failing. -/
theorem normalizeToolsSettings_total_defaults_w :
    normalizeToolsSettings (.vObj []) = .ok ⟨[], [], false⟩ := by
  obtain ⟨ts, h1, h2, h3, h4, h5, h6⟩ :=
    normalizeToolsSettings_total_defaults (.vObj []) rfl
  rw [h2 rfl] at h1
  exact h1

end LettaSDK
